import Mathlib

/-!
Verification development for the CircleCI environment-variable provider:
an API client (`AddEnvironmentVariable`, `EnvironmentVariableExists`,
`GetEnvironmentVariable`, `DeleteEnvironmentVariable`) and the resource
lifecycle adapter (`resourceCircleCIEnvironmentVariableCreate` / `Read` /
`Delete` / `Exists`), embedded as pure Lean functions.  HTTP I/O is
modelled by a transport function from requests to either a transport
error or a response; every operation also returns the list of HTTP
requests it issued, so that "operation X never performs call Y" is
expressible.
-/

/-- Characters used to keep apostrophes and braces out of string literals. -/
def squote : String := String.mk [Char.ofNat 39]

/-- An HTTP response as the client observes it: status code and body. -/
structure HttpResponse where
  statusCode : Nat
  body : String
deriving DecidableEq, Repr

/-- An HTTP request as the client builds it: method, URL, optional body,
headers, and the basic-auth username (the token; the password is always
empty in the source). -/
structure HttpRequest where
  method : String
  url : String
  reqBody : Option String
  headers : List (String × String)
  basicAuthUser : String
deriving DecidableEq, Repr

/-- The transport: what `http.Client.Do` does.  `Except.error e` models a
transport failure (network error), `Except.ok` a delivered response. -/
def HttpTransport : Type := HttpRequest → Except String HttpResponse

/-- Struct `EnvironmentVariable` inside a CircleCI project (client.go). -/
structure EnvironmentVariable where
  Name : String
  Value : String
deriving DecidableEq, Repr

/-- Constant `defaultBaseURL` from client.go. -/
def defaultBaseURL : String := "https://circleci.com/api/v1.1"

/-- Constant `envvarEndpoint` from client.go. -/
def envvarEndpoint : String := "envvar"

/-- The `Client` struct from client.go; `httpClient` is the transport. -/
structure Client where
  baseURL : String
  token : String
  vcsType : String
  organization : String
  httpClient : HttpTransport

/-- Method `Client.buildApiURL`: `{baseURL}/project/{vcsType}/{organization}/{projectName}/{endpoint}`. -/
def buildApiURL (c : Client) (projectName endpoint : String) : String :=
  c.baseURL ++ "/project/" ++ c.vcsType ++ "/" ++ c.organization ++ "/"
    ++ projectName ++ "/" ++ endpoint

/-- JSON string escaping as used when serializing an `EnvironmentVariable`
(quotes and backslashes; the payloads in this development contain no other
characters needing escapes). -/
def jsonEscapeChar (c : Char) : List Char :=
  if c = '"' ∨ c = '\\' then ['\\', c] else [c]

/-- Serialize a string as a JSON string literal. -/
def jsonString (s : String) : String :=
  "\"" ++ String.mk (s.toList.foldr (fun c acc => jsonEscapeChar c ++ acc) []) ++ "\""

/-- Encoding `json.NewEncoder(b).Encode(e)` for an `EnvironmentVariable`: the object
with the two tagged fields, followed by the newline the Go encoder appends. -/
def encodeEnvVar (e : EnvironmentVariable) : String :=
  "\x7b\"name\":" ++ jsonString e.Name ++ ",\"value\":" ++ jsonString e.Value ++ "\x7d\n"

/-- Method `Client.AddEnvironmentVariable` (client.go lines 76-112): POST the
serialized variable; 201 is the only success; any other status yields
`client: create wrong status code {d}`; a transport failure propagates.
Also returns the requests issued. -/
def AddEnvironmentVariable (c : Client) (projectName envName envValue : String) :
    Option String × List HttpRequest :=
  let endpointURL := buildApiURL c projectName envvarEndpoint
  let e : EnvironmentVariable := { Name := envName, Value := envValue }
  let req : HttpRequest :=
    { method := "POST", url := endpointURL, reqBody := some (encodeEnvVar e),
      headers := [("Accept", "application/json"),
                  ("Content-Type", "application/json; charset=utf-8")],
      basicAuthUser := c.token }
  match c.httpClient req with
  | Except.error err => (some err, [req])
  | Except.ok resp =>
    if resp.statusCode ≠ 201 then
      (some ("client: create wrong status code " ++ toString resp.statusCode), [req])
    else
      (none, [req])

/-- Method `Client.EnvironmentVariableExists` (client.go lines 114-141): HEAD the
variable URL; 200 means it exists, 404 means it does not (no error), any
other status is an error; a transport failure propagates as `(false, err)`. -/
def EnvironmentVariableExists (c : Client) (projectName envName : String) :
    (Bool × Option String) × List HttpRequest :=
  let endpointURL := buildApiURL c projectName envvarEndpoint ++ "/" ++ envName
  let req : HttpRequest :=
    { method := "HEAD", url := endpointURL, reqBody := none, headers := [],
      basicAuthUser := c.token }
  match c.httpClient req with
  | Except.error err => ((false, some err), [req])
  | Except.ok resp =>
    if resp.statusCode ≠ 200 then
      if resp.statusCode = 404 then
        ((false, none), [req])
      else
        ((false, some ("circleci: wrong status code " ++ toString resp.statusCode
          ++ " getting environment variable")), [req])
    else
      ((true, none), [req])

/-- Whitespace skipping for the JSON decoder. -/
def skipWs : List Char → List Char
  | [] => []
  | c :: cs => if c = ' ' ∨ c = '\n' ∨ c = '\t' ∨ c = '\r' then skipWs cs else c :: cs

/-- Parse the body of a JSON string literal (after the opening quote) up to
the closing quote, handling the escapes the encoder can produce plus the
common control escapes; returns the decoded characters and the remainder. -/
def parseStringBody : List Char → Option (List Char × List Char)
  | [] => none
  | '"' :: rest => some ([], rest)
  | '\\' :: c :: rest =>
    match parseStringBody rest with
    | none => none
    | some (s, r) =>
      let dc := if c = 'n' then '\n' else if c = 't' then '\t' else c
      some (dc :: s, r)
  | c :: rest =>
    match parseStringBody rest with
    | none => none
    | some (s, r) => some (c :: s, r)

/-- Fold one decoded JSON member into an `EnvironmentVariable`, mirroring
how `json.Decoder.Decode` fills the two tagged fields and ignores others. -/
def applyMember (e : EnvironmentVariable) (key v : List Char) : EnvironmentVariable :=
  if key = "name".toList then { e with Name := String.mk v }
  else if key = "value".toList then { e with Value := String.mk v }
  else e

/-- Parse the members of a JSON object of string fields (fuel-bounded; the
fuel is the input length, and each member consumes at least one character). -/
def parseMembers (fuel : Nat) (e : EnvironmentVariable) (s : List Char) :
    Option (EnvironmentVariable × List Char) :=
  match fuel with
  | 0 => none
  | fuel + 1 =>
    match skipWs s with
    | '"' :: rest =>
      match parseStringBody rest with
      | none => none
      | some (key, r1) =>
        match skipWs r1 with
        | ':' :: r2 =>
          match skipWs r2 with
          | '"' :: r3 =>
            match parseStringBody r3 with
            | none => none
            | some (v, r4) =>
              let e := applyMember e key v
              match skipWs r4 with
              | ',' :: r5 => parseMembers fuel e r5
              | '\x7d' :: r5 => some (e, r5)
              | _ => none
          | _ => none
        | _ => none
    | _ => none

/-- Decoding `json.Decoder.Decode` into an `EnvironmentVariable`: parse `\x7b ... \x7d`
whose members are string fields; unknown keys are ignored and missing keys
leave the zero value, as in Go. -/
def decodeEnvVar (s : String) : Option EnvironmentVariable :=
  match skipWs s.toList with
  | '\x7b' :: rest =>
    match skipWs rest with
    | '\x7d' :: _ => some { Name := "", Value := "" }
    | _ =>
      match parseMembers (s.length + 1) { Name := "", Value := "" } rest with
      | none => none
      | some (e, _) => some e
  | _ => none

/-- Method `Client.GetEnvironmentVariable` (client.go lines 146-176): GET the
variable URL; only 200 is success, any other status yields
`circleci: wrong status code {d} getting environment variable`; on 200 the
body is JSON-decoded (decode failure is an error); transport failures
propagate.  Returns the Go-shaped pair `(result, error)` plus the requests
issued. -/
def GetEnvironmentVariable (c : Client) (projectName envName : String) :
    (Option EnvironmentVariable × Option String) × List HttpRequest :=
  let endpointURL := buildApiURL c projectName envvarEndpoint ++ "/" ++ envName
  let req : HttpRequest :=
    { method := "GET", url := endpointURL, reqBody := none,
      headers := [("Accept", "application/json")], basicAuthUser := c.token }
  match c.httpClient req with
  | Except.error err => ((none, some err), [req])
  | Except.ok resp =>
    if resp.statusCode ≠ 200 then
      ((none, some ("circleci: wrong status code " ++ toString resp.statusCode
        ++ " getting environment variable")), [req])
    else
      match decodeEnvVar resp.body with
      | none => ((none, some "json: cannot decode body into EnvironmentVariable"), [req])
      | some e => ((some e, none), [req])

/-- Method `Client.DeleteEnvironmentVariable` (client.go lines 181-205): DELETE the
variable URL; only 200 is success, any other status yields
`circleci: wrong status code {d} deleting environment variable`; transport
failures propagate. -/
def DeleteEnvironmentVariable (c : Client) (projectName envName : String) :
    Option String × List HttpRequest :=
  let endpointURL := buildApiURL c projectName envvarEndpoint ++ "/" ++ envName
  let req : HttpRequest :=
    { method := "DELETE", url := endpointURL, reqBody := none,
      headers := [("Accept", "application/json")], basicAuthUser := c.token }
  match c.httpClient req with
  | Except.error err => (some err, [req])
  | Except.ok resp =>
    if resp.statusCode ≠ 200 then
      (some ("circleci: wrong status code " ++ toString resp.statusCode
        ++ " deleting environment variable"), [req])
    else
      (none, [req])

/-- Outcome of an adapter operation: Go functions either return normally
(`ok` a value, `err` a non-nil error) or panic. -/
inductive GoResult (α : Type) where
  | ok (a : α)
  | err (msg : String)
  | panicked (msg : String)
deriving DecidableEq, Repr

/-- The host engine record (`schema.ResourceData`) as this adapter uses it:
the three schema fields plus the identity set by `SetId` (the empty string
is the cleared / never-set identity, i.e. the record is absent). -/
structure ResourceData where
  project : String
  name : String
  value : String
  id : String
deriving DecidableEq, Repr

/-- Function `resourceCircleCIEnvironmentVariableRead` (resource file lines 100-118):
get the variable; on error return it; on success set the `name` field from
the response (the value cannot be refreshed, so it is left untouched).
A nil variable with a nil error would dereference a nil pointer, which is
unreachable because `GetEnvironmentVariable` never produces it. -/
def resourceCircleCIEnvironmentVariableRead (c : Client) (d : ResourceData) :
    (ResourceData × GoResult Unit) × List HttpRequest :=
  match GetEnvironmentVariable c d.project d.name with
  | ((_, some e), l) => ((d, GoResult.err e), l)
  | ((some envVar, none), l) => (({ d with name := envVar.Name }, GoResult.ok ()), l)
  | ((none, none), l) =>
    ((d, GoResult.panicked "runtime error: invalid memory address or nil pointer dereference"), l)

/-- Function `resourceCircleCIEnvironmentVariableCreate` (resource file lines 75-98):
check existence (propagating its error); if the variable exists fail with
the conflict error naming variable and project; otherwise create it
(propagating its error), set the identity to the variable name with
`SetId`, and finish with the adapter Read. -/
def resourceCircleCIEnvironmentVariableCreate (c : Client) (d : ResourceData) :
    (ResourceData × GoResult Unit) × List HttpRequest :=
  match EnvironmentVariableExists c d.project d.name with
  | ((_, some e), l1) => ((d, GoResult.err e), l1)
  | ((ex, none), l1) =>
    if ex then
      ((d, GoResult.err ("environment variable " ++ squote ++ d.name ++ squote
        ++ " already exists for project " ++ squote ++ d.project ++ squote)), l1)
    else
      match AddEnvironmentVariable c d.project d.name d.value with
      | (some e, l2) => ((d, GoResult.err e), l1 ++ l2)
      | (none, l2) =>
        match resourceCircleCIEnvironmentVariableRead c { d with id := d.name } with
        | ((d2, r), l3) => ((d2, r), l1 ++ l2 ++ l3)

/-- Function `resourceCircleCIEnvironmentVariableDelete` (resource file lines 120-134):
delete the variable (propagating its error) and clear the identity. -/
def resourceCircleCIEnvironmentVariableDelete (c : Client) (d : ResourceData) :
    (ResourceData × GoResult Unit) × List HttpRequest :=
  match DeleteEnvironmentVariable c d.project d.name with
  | (some e, l) => ((d, GoResult.err e), l)
  | (none, l) => (({ d with id := "" }, GoResult.ok ()), l)

/-- Function `resourceCircleCIEnvironmentVariableExists` (resource file lines 136-145):
reads the project and name fields and then unconditionally panics with a
debug message before reaching the delegating call to the client; the
`return client.EnvironmentVariableExists(...)` after the panic is dead
code, so no HTTP request is ever issued. -/
def resourceCircleCIEnvironmentVariableExists (c : Client) (d : ResourceData) :
    GoResult Bool × List HttpRequest :=
  (GoResult.panicked ("project: " ++ d.project ++ " name: " ++ d.name ++ "\n"), [])

/-- 2^32, the modulus for 32-bit words in SHA-256. -/
def w32mod : Nat := 4294967296

/-- Right rotation of a 32-bit word. -/
def rotr32 (x n : Nat) : Nat := ((x >>> n) ||| (x <<< (32 - n))) % w32mod

/-- SHA-256 `Ch(x,y,z) = (x ∧ y) ⊕ (¬x ∧ z)` (complement as xor with the
32-bit all-ones mask). -/
def sha256Ch (x y z : Nat) : Nat := (x &&& y) ^^^ ((x ^^^ 4294967295) &&& z)

/-- SHA-256 `Maj(x,y,z)`. -/
def sha256Maj (x y z : Nat) : Nat := (x &&& y) ^^^ (x &&& z) ^^^ (y &&& z)

/-- SHA-256 Σ0. -/
def bigSigma0 (x : Nat) : Nat := rotr32 x 2 ^^^ rotr32 x 13 ^^^ rotr32 x 22

/-- SHA-256 Σ1. -/
def bigSigma1 (x : Nat) : Nat := rotr32 x 6 ^^^ rotr32 x 11 ^^^ rotr32 x 25

/-- SHA-256 σ0. -/
def smallSigma0 (x : Nat) : Nat := rotr32 x 7 ^^^ rotr32 x 18 ^^^ (x >>> 3)

/-- SHA-256 σ1. -/
def smallSigma1 (x : Nat) : Nat := rotr32 x 17 ^^^ rotr32 x 19 ^^^ (x >>> 10)

/-- The 64 SHA-256 round constants. -/
def sha256K : List Nat :=
  [1116352408, 1899447441, 3049323471, 3921009573, 961987163,
   1508970993, 2453635748, 2870763221, 3624381080, 310598401,
   607225278, 1426881987, 1925078388, 2162078206, 2614888103,
   3248222580, 3835390401, 4022224774, 264347078, 604807628,
   770255983, 1249150122, 1555081692, 1996064986, 2554220882,
   2821834349, 2952996808, 3210313671, 3336571891, 3584528711,
   113926993, 338241895, 666307205, 773529912, 1294757372,
   1396182291, 1695183700, 1986661051, 2177026350, 2456956037,
   2730485921, 2820302411, 3259730800, 3345764771, 3516065817,
   3600352804, 4094571909, 275423344, 430227734, 506948616,
   659060556, 883997877, 958139571, 1322822218, 1537002063,
   1747873779, 1955562222, 2024104815, 2227730452, 2361852424,
   2428436474, 2756734187, 3204031479, 3329325298]

/-- The eight SHA-256 initial hash words. -/
def sha256InitH : List Nat :=
  [1779033703, 3144134277, 1013904242, 2773480762, 1359893119,
   2600822924, 528734635, 1541459225]

/-- The `k` bytes of `n`, big-endian. -/
def toBytesBE (k n : Nat) : List Nat :=
  (List.range k).map (fun i => (n >>> (8 * (k - 1 - i))) &&& 255)

/-- Group consecutive bytes into big-endian 32-bit words. -/
def bytesToWords : List Nat → List Nat
  | a :: b :: c :: d :: rest =>
    ((a <<< 24) ||| (b <<< 16) ||| (c <<< 8) ||| d) :: bytesToWords rest
  | _ => []

/-- SHA-256 padding: append `0x80`, zero bytes to 56 mod 64, then the
64-bit big-endian bit length. -/
def sha256Pad (msg : List Nat) : List Nat :=
  let withOne := msg ++ [0x80]
  let zeros := (64 - (withOne.length + 8) % 64) % 64
  withOne ++ List.replicate zeros 0 ++ toBytesBE 8 (8 * msg.length)

/-- Split a list into chunks of `n` (fuel-bounded by the list length; each
step consumes at least one element since `n` is positive at use sites). -/
def chunksOfAux (fuel n : Nat) (l : List Nat) : List (List Nat) :=
  match fuel with
  | 0 => []
  | fuel + 1 =>
    match l with
    | [] => []
    | _ => l.take n :: chunksOfAux fuel n (l.drop n)

/-- Split a list into chunks of `n`. -/
def chunksOf (n : Nat) (l : List Nat) : List (List Nat) :=
  chunksOfAux l.length n l

/-- Extend the 16 message-schedule words of a block to 64. -/
def sha256Schedule (ws : List Nat) : List Nat :=
  (List.range 48).foldl
    (fun w _ =>
      let n := w.length
      w ++ [(smallSigma1 (w.getD (n - 2) 0) + w.getD (n - 7) 0
        + smallSigma0 (w.getD (n - 15) 0) + w.getD (n - 16) 0) % w32mod])
    ws

/-- The eight working variables of the SHA-256 compression function. -/
structure Sha256State where
  a : Nat
  b : Nat
  c : Nat
  d : Nat
  e : Nat
  f : Nat
  g : Nat
  h : Nat

/-- One round of the SHA-256 compression function; `kw` is the pair of the
round constant and the schedule word. -/
def sha256Round (st : Sha256State) (kw : Nat × Nat) : Sha256State :=
  let t1 := (st.h + bigSigma1 st.e + sha256Ch st.e st.f st.g + kw.1 + kw.2) % w32mod
  let t2 := (bigSigma0 st.a + sha256Maj st.a st.b st.c) % w32mod
  { a := (t1 + t2) % w32mod, b := st.a, c := st.b, d := st.c,
    e := (st.d + t1) % w32mod, f := st.e, g := st.f, h := st.g }

/-- Process one 64-byte block, updating the eight hash words. -/
def sha256Block (hs : List Nat) (block : List Nat) : List Nat :=
  let ws := sha256Schedule (bytesToWords block)
  let st0 : Sha256State :=
    { a := hs.getD 0 0, b := hs.getD 1 0, c := hs.getD 2 0, d := hs.getD 3 0,
      e := hs.getD 4 0, f := hs.getD 5 0, g := hs.getD 6 0, h := hs.getD 7 0 }
  let st := (sha256K.zip ws).foldl sha256Round st0
  [(hs.getD 0 0 + st.a) % w32mod, (hs.getD 1 0 + st.b) % w32mod,
   (hs.getD 2 0 + st.c) % w32mod, (hs.getD 3 0 + st.d) % w32mod,
   (hs.getD 4 0 + st.e) % w32mod, (hs.getD 5 0 + st.f) % w32mod,
   (hs.getD 6 0 + st.g) % w32mod, (hs.getD 7 0 + st.h) % w32mod]

/-- Function `sha256.Sum256`: the 32 digest bytes of a byte message. -/
def sha256 (msg : List Nat) : List Nat :=
  let hs := (chunksOf 64 (sha256Pad msg)).foldl sha256Block sha256InitH
  (hs.map (toBytesBE 4)).flatten

/-- The standard base64 alphabet (`base64.StdEncoding`). -/
def base64Alphabet : List Char :=
  "ABCDEFGHIJKLMNOPQRSTUVWXYZabcdefghijklmnopqrstuvwxyz0123456789+/".toList

/-- The base64 digit for a 6-bit value. -/
def base64Digit (n : Nat) : Char := base64Alphabet.getD n 'A'

/-- Function `base64.StdEncoding.EncodeToString`: encode bytes three at a time with
`=` padding. -/
def base64Encode : List Nat → String
  | [] => ""
  | [a] =>
    String.mk [base64Digit (a >>> 2), base64Digit ((a &&& 3) <<< 4)] ++ "=="
  | [a, b] =>
    String.mk [base64Digit (a >>> 2), base64Digit (((a &&& 3) <<< 4) ||| (b >>> 4)),
      base64Digit ((b &&& 15) <<< 2)] ++ "="
  | a :: b :: c :: rest =>
    String.mk [base64Digit (a >>> 2), base64Digit (((a &&& 3) <<< 4) ||| (b >>> 4)),
      base64Digit (((b &&& 15) <<< 2) ||| (c >>> 6)), base64Digit (c &&& 63)]
      ++ base64Encode rest

/-- UTF-8 encoding of one code point. -/
def utf8EncodeCharNat (c : Nat) : List Nat :=
  if c < 0x80 then [c]
  else if c < 0x800 then
    [0xC0 ||| (c >>> 6), 0x80 ||| (c &&& 0x3F)]
  else if c < 0x10000 then
    [0xE0 ||| (c >>> 12), 0x80 ||| ((c >>> 6) &&& 0x3F), 0x80 ||| (c &&& 0x3F)]
  else
    [0xF0 ||| (c >>> 18), 0x80 ||| ((c >>> 12) &&& 0x3F),
     0x80 ||| ((c >>> 6) &&& 0x3F), 0x80 ||| (c &&& 0x3F)]

/-- The bytes of a string, as Go `[]byte(str)` produces them (UTF-8). -/
def utf8Bytes (s : String) : List Nat :=
  (s.toList.map (fun c => utf8EncodeCharNat c.toNat)).flatten

/-- Function `hashString` (resource file lines 70-73): sha256 checksum of the
string, base64-encoded. -/
def hashString (str : String) : String := base64Encode (sha256 (utf8Bytes str))

/-- The `StateFunc` of the `value` schema field (resource file lines 45-50):
what the host engine persists for the value field is `hashString` of it. -/
def valueStateFunc (value : String) : String := hashString value

/-- The 52 characters of the POSIX class `[[:alpha:]]` (ASCII letters). -/
def alphaChars : List Char :=
  "ABCDEFGHIJKLMNOPQRSTUVWXYZabcdefghijklmnopqrstuvwxyz".toList

/-- The 63 characters of the POSIX class `[[:word:]]` (letters, digits,
underscore). -/
def wordChars : List Char := alphaChars ++ "0123456789_".toList

/-- A character class as a regular expression: the sum of its characters. -/
def oneOf (l : List Char) : RegularExpression Char :=
  l.foldr (fun c r => RegularExpression.char c + r) 0

/-- Go's `+` quantifier: one or more. -/
def plusRE (r : RegularExpression Char) : RegularExpression Char := r * r.star

/-- Regex `envVarNameRegexp` (client.go line 17): `^[[:alpha:]]+[[:word:]]*$`.
The `^`/`$` anchors make `MatchString` a whole-string match, so the
embedded regex denotes the full matched string. -/
def envVarNameRegexp : RegularExpression Char :=
  plusRE (oneOf alphaChars) * (oneOf wordChars).star

/-- Function `ValidateEnvironmentVariableName` (client.go lines 39-41):
`envVarNameRegexp.MatchString(name)`. -/
def ValidateEnvironmentVariableName (name : String) : Bool :=
  envVarNameRegexp.rmatch name.toList

/-- Bool-valued substring test on the underlying character lists. -/
def containsStr (sub s : String) : Bool := decide (sub.toList <:+: s.toList)

/-- A string is an infix of any enclosing concatenation. -/
theorem toList_infix_middle (a b c : String) : b.toList <:+: (a ++ b ++ c).toList :=
  ⟨a.toList, c.toList, by simp [String.data_append]⟩

/-- A string is an infix of a concatenation it ends. -/
theorem toList_infix_right (a b : String) : b.toList <:+: (a ++ b).toList :=
  ⟨a.toList, [], by simp [String.toList, String.data_append]⟩

/-- Claim C4: the client existence check maps HTTP 200 to `(true, nil)`,
HTTP 404 to `(false, nil)`, any other status to `(false, error naming the
unexpected code)`, and a transport failure to `(false, that error)`. -/
theorem environmentVariableExists_status_mapping
    (u tok v o p n b e : String) (s : Nat) :
    ((EnvironmentVariableExists
        (Client.mk u tok v o (fun _ => Except.ok ⟨200, b⟩)) p n).1 = (true, none))
    ∧ ((EnvironmentVariableExists
        (Client.mk u tok v o (fun _ => Except.ok ⟨404, b⟩)) p n).1 = (false, none))
    ∧ (s ≠ 200 → s ≠ 404 →
        (EnvironmentVariableExists
            (Client.mk u tok v o (fun _ => Except.ok ⟨s, b⟩)) p n).1
          = (false, some ("circleci: wrong status code " ++ toString s
              ++ " getting environment variable")))
    ∧ ((EnvironmentVariableExists
        (Client.mk u tok v o (fun _ => Except.error e)) p n).1 = (false, some e)) := by
  refine ⟨rfl, rfl, ?_, rfl⟩
  intro h200 h404
  simp only [EnvironmentVariableExists]
  rw [if_pos h200, if_neg h404]

/-- Witness for C4: the mapping at the concrete unexpected status 500. -/
theorem environmentVariableExists_status_mapping_witness :
    (500 ≠ 200 ∧ 500 ≠ 404)
    ∧ (EnvironmentVariableExists
        (Client.mk "u" "t" "v" "o" (fun _ => Except.ok ⟨500, ""⟩)) "p" "n").1
      = (false, some ("circleci: wrong status code " ++ toString 500
          ++ " getting environment variable")) :=
  ⟨⟨by decide, by decide⟩,
    (environmentVariableExists_status_mapping "u" "t" "v" "o" "p" "n" "" "" 500).2.2.1
      (by decide) (by decide)⟩

/-- Claim C5: the client create succeeds exactly on HTTP 201; any other
status yields an error embedding that status code; a transport failure
propagates. -/
theorem addEnvironmentVariable_status_mapping
    (u tok v o p n val b e : String) (s : Nat) :
    ((AddEnvironmentVariable
        (Client.mk u tok v o (fun _ => Except.ok ⟨s, b⟩)) p n val).1 = none ↔ s = 201)
    ∧ (s ≠ 201 →
        (AddEnvironmentVariable
            (Client.mk u tok v o (fun _ => Except.ok ⟨s, b⟩)) p n val).1
          = some ("client: create wrong status code " ++ toString s)
        ∧ (toString s).toList
            <:+: ("client: create wrong status code " ++ toString s).toList)
    ∧ ((AddEnvironmentVariable
        (Client.mk u tok v o (fun _ => Except.error e)) p n val).1 = some e) := by
  refine ⟨?_, ?_, rfl⟩
  · by_cases h : s = 201
    · subst h
      simp [AddEnvironmentVariable]
    · simp only [AddEnvironmentVariable]
      rw [if_pos h]
      simp [h]
  · intro h
    refine ⟨?_, toList_infix_right _ _⟩
    simp only [AddEnvironmentVariable]
    rw [if_pos h]

/-- Witness for C5: status 200 (not 201) is rejected with the code in the
message. -/
theorem addEnvironmentVariable_status_mapping_witness :
    (200 ≠ 201)
    ∧ (AddEnvironmentVariable
        (Client.mk "u" "t" "v" "o" (fun _ => Except.ok ⟨200, ""⟩)) "p" "n" "v").1
      = some ("client: create wrong status code " ++ toString 200) :=
  ⟨by decide,
    ((addEnvironmentVariable_status_mapping "u" "t" "v" "o" "p" "n" "v" "" "" 200).2.1
      (by decide)).1⟩

/-- Claim C6: reading against HTTP 200 with the JSON body
`\x7b"name":"key","value":"value"\x7d` yields that variable and no error;
against HTTP 400 it yields a nil result and exactly the message
`circleci: wrong status code 400 getting environment variable`. -/
theorem getEnvironmentVariable_responses (u tok v o p n b : String) :
    ((GetEnvironmentVariable
        (Client.mk u tok v o
          (fun _ => Except.ok ⟨200, "\x7b\"name\":\"key\",\"value\":\"value\"\x7d"⟩)) p n).1
      = (some { Name := "key", Value := "value" }, none))
    ∧ ((GetEnvironmentVariable
        (Client.mk u tok v o (fun _ => Except.ok ⟨400, b⟩)) p n).1
      = (none, some "circleci: wrong status code 400 getting environment variable")) := by
  constructor
  · rfl
  · simp only [GetEnvironmentVariable]
    norm_num
    decide

/-- Claim C7: the client delete succeeds exactly on HTTP 200; against HTTP
404 (deleting an already-absent variable again) the not-OK status is
surfaced as exactly `circleci: wrong status code 404 deleting environment
variable`, not swallowed. -/
theorem deleteEnvironmentVariable_status_mapping
    (u tok v o p n b : String) (s : Nat) :
    ((DeleteEnvironmentVariable
        (Client.mk u tok v o (fun _ => Except.ok ⟨s, b⟩)) p n).1 = none ↔ s = 200)
    ∧ ((DeleteEnvironmentVariable
        (Client.mk u tok v o (fun _ => Except.ok ⟨404, b⟩)) p n).1
      = some "circleci: wrong status code 404 deleting environment variable")
    ∧ ((DeleteEnvironmentVariable
        (Client.mk u tok v o (fun _ => Except.ok ⟨200, b⟩)) p n).1 = none) := by
  refine ⟨?_, ?_, rfl⟩
  case refine_2 =>
    simp only [DeleteEnvironmentVariable]
    norm_num
    decide
  by_cases h : s = 200
  · subst h
    simp [DeleteEnvironmentVariable]
  · simp only [DeleteEnvironmentVariable]
    rw [if_pos h]
    simp [h]

/-- Witness for C7: the mapping evaluated at statuses 404 and 200. -/
theorem deleteEnvironmentVariable_status_mapping_witness :
    ((DeleteEnvironmentVariable
        (Client.mk "u" "t" "v" "o" (fun _ => Except.ok ⟨404, ""⟩)) "p" "n").1 = none
      ↔ (404 : Nat) = 200)
    ∧ (DeleteEnvironmentVariable
        (Client.mk "u" "t" "v" "o" (fun _ => Except.ok ⟨404, ""⟩)) "p" "n").1
      = some "circleci: wrong status code 404 deleting environment variable" :=
  ⟨(deleteEnvironmentVariable_status_mapping "u" "t" "v" "o" "p" "n" "" 404).1,
    (deleteEnvironmentVariable_status_mapping "u" "t" "v" "o" "p" "n" "" 404).2.1⟩

/-- Claim C1 (code bug): for every client and record, the adapter Exists
operation does not return the client existence check at all — it
unconditionally panics with a leftover debug message built from the
project and name fields, and issues no HTTP request. -/
theorem resourceExists_always_panics (c : Client) (d : ResourceData) :
    resourceCircleCIEnvironmentVariableExists c d
      = (GoResult.panicked ("project: " ++ d.project ++ " name: " ++ d.name ++ "\n"), []) :=
  rfl

/-- The adapter Read never changes the record identity: it only refreshes
the `name` field. -/
theorem resourceRead_preserves_id (c : Client) (d : ResourceData) :
    ((resourceCircleCIEnvironmentVariableRead c d).1.1).id = d.id := by
  rcases hG : GetEnvironmentVariable c d.project d.name with ⟨⟨ev, err⟩, l⟩
  cases err <;> cases ev <;>
    simp [resourceCircleCIEnvironmentVariableRead, hG]

/-- Claim C2: the adapter Create first performs the client existence check
(its requests are a prefix of all requests issued); if the variable exists
it fails with the conflict error naming both the variable and the project
and issues no request beyond the existence check (in particular it never
calls the client create); otherwise, when the client create succeeds, it
sets the identity to the variable name and finishes with the adapter Read. -/
theorem resourceCreate_flow (c : Client) (d : ResourceData) :
    (∃ rest, (resourceCircleCIEnvironmentVariableCreate c d).2
        = (EnvironmentVariableExists c d.project d.name).2 ++ rest)
    ∧ ((EnvironmentVariableExists c d.project d.name).1 = (true, none) →
        resourceCircleCIEnvironmentVariableCreate c d
          = ((d, GoResult.err ("environment variable " ++ squote ++ d.name ++ squote
              ++ " already exists for project " ++ squote ++ d.project ++ squote)),
             (EnvironmentVariableExists c d.project d.name).2)
        ∧ d.name.toList <:+: ("environment variable " ++ squote ++ d.name ++ squote
              ++ " already exists for project " ++ squote ++ d.project ++ squote).toList
        ∧ d.project.toList <:+: ("environment variable " ++ squote ++ d.name ++ squote
              ++ " already exists for project " ++ squote ++ d.project ++ squote).toList)
    ∧ ((EnvironmentVariableExists c d.project d.name).1 = (false, none) →
        (AddEnvironmentVariable c d.project d.name d.value).1 = none →
        resourceCircleCIEnvironmentVariableCreate c d
          = ((resourceCircleCIEnvironmentVariableRead c { d with id := d.name }).1,
             (EnvironmentVariableExists c d.project d.name).2
               ++ (AddEnvironmentVariable c d.project d.name d.value).2
               ++ (resourceCircleCIEnvironmentVariableRead c { d with id := d.name }).2)
        ∧ ((resourceCircleCIEnvironmentVariableCreate c d).1.1).id = d.name) := by
  rcases hE : EnvironmentVariableExists c d.project d.name with ⟨⟨ex, err⟩, l1⟩
  refine ⟨?_, ?_, ?_⟩
  · cases err with
    | some e =>
      exact ⟨[], by simp [resourceCircleCIEnvironmentVariableCreate, hE]⟩
    | none =>
      cases ex with
      | true =>
        exact ⟨[], by simp [resourceCircleCIEnvironmentVariableCreate, hE]⟩
      | false =>
        rcases hA : AddEnvironmentVariable c d.project d.name d.value with ⟨errA, l2⟩
        cases errA with
        | some e =>
          exact ⟨l2, by simp [resourceCircleCIEnvironmentVariableCreate, hE, hA]⟩
        | none =>
          rcases hR : resourceCircleCIEnvironmentVariableRead c { d with id := d.name }
            with ⟨⟨d2, r⟩, l3⟩
          exact ⟨l2 ++ l3,
            by simp [resourceCircleCIEnvironmentVariableCreate, hE, hA, hR]⟩
  · intro h
    simp only [hE] at h
    obtain ⟨hex, herr⟩ : ex = true ∧ err = none := by
      constructor <;> [exact congrArg Prod.fst h; exact congrArg Prod.snd h]
    subst hex
    subst herr
    refine ⟨?_, ?_, ?_⟩
    · simp [resourceCircleCIEnvironmentVariableCreate, hE]
    · exact ⟨("environment variable " ++ squote).toList,
        (squote ++ " already exists for project " ++ squote ++ d.project ++ squote).toList,
        by simp [String.toList, String.data_append, List.append_assoc]⟩
    · exact ⟨("environment variable " ++ squote ++ d.name ++ squote
          ++ " already exists for project " ++ squote).toList,
        squote.toList,
        by simp [String.toList, String.data_append, List.append_assoc]⟩
  · intro h1 h2
    simp only [hE] at h1
    obtain ⟨hex, herr⟩ : ex = false ∧ err = none := by
      constructor <;> [exact congrArg Prod.fst h1; exact congrArg Prod.snd h1]
    subst hex
    subst herr
    rcases hA : AddEnvironmentVariable c d.project d.name d.value with ⟨errA, l2⟩
    simp only [hA] at h2
    subst h2
    rcases hR : resourceCircleCIEnvironmentVariableRead c { d with id := d.name }
      with ⟨⟨d2, r⟩, l3⟩
    have hid : d2.id = d.name := by
      have := resourceRead_preserves_id c { d with id := d.name }
      rw [hR] at this
      simpa using this
    constructor
    · simp [resourceCircleCIEnvironmentVariableCreate, hE, hA, hR]
    · simp [resourceCircleCIEnvironmentVariableCreate, hE, hA, hR, hid]

/-- Witness for C2: a client whose existence check sees HTTP 200 makes
Create fail with the conflict error naming variable and project. -/
theorem resourceCreate_flow_witness :
    (EnvironmentVariableExists
        (Client.mk "https://circleci.com/api/v1.1" "tok" "github" "org"
          (fun _ => Except.ok ⟨200, ""⟩)) "bar" "key").1 = (true, none)
    ∧ resourceCircleCIEnvironmentVariableCreate
        (Client.mk "https://circleci.com/api/v1.1" "tok" "github" "org"
          (fun _ => Except.ok ⟨200, ""⟩))
        { project := "bar", name := "key", value := "v", id := "" }
      = (({ project := "bar", name := "key", value := "v", id := "" },
          GoResult.err ("environment variable " ++ squote ++ "key" ++ squote
            ++ " already exists for project " ++ squote ++ "bar" ++ squote)),
         (EnvironmentVariableExists
            (Client.mk "https://circleci.com/api/v1.1" "tok" "github" "org"
              (fun _ => Except.ok ⟨200, ""⟩)) "bar" "key").2) :=
  ⟨rfl,
    ((resourceCreate_flow
        (Client.mk "https://circleci.com/api/v1.1" "tok" "github" "org"
          (fun _ => Except.ok ⟨200, ""⟩))
        { project := "bar", name := "key", value := "v", id := "" }).2.1 rfl).1⟩

/-- Claim C3 (amended): an error from the existence check, the conflict
check, or the client create leaves the record untouched (identity unset);
but when the post-create Read fails, Create returns that error with the
identity already set to the variable name. -/
theorem resourceCreate_error_state (c : Client) (d : ResourceData) :
    (∀ e, (EnvironmentVariableExists c d.project d.name).1.2 = some e →
        (resourceCircleCIEnvironmentVariableCreate c d).1 = (d, GoResult.err e))
    ∧ ((EnvironmentVariableExists c d.project d.name).1 = (true, none) →
        (resourceCircleCIEnvironmentVariableCreate c d).1.1 = d)
    ∧ (∀ e, (EnvironmentVariableExists c d.project d.name).1 = (false, none) →
        (AddEnvironmentVariable c d.project d.name d.value).1 = some e →
        (resourceCircleCIEnvironmentVariableCreate c d).1 = (d, GoResult.err e))
    ∧ (∀ e, (EnvironmentVariableExists c d.project d.name).1 = (false, none) →
        (AddEnvironmentVariable c d.project d.name d.value).1 = none →
        (resourceCircleCIEnvironmentVariableRead c { d with id := d.name }).1.2
          = GoResult.err e →
        (resourceCircleCIEnvironmentVariableCreate c d).1.2 = GoResult.err e
        ∧ ((resourceCircleCIEnvironmentVariableCreate c d).1.1).id = d.name) := by
  rcases hE : EnvironmentVariableExists c d.project d.name with ⟨⟨ex, err⟩, l1⟩
  refine ⟨?_, ?_, ?_, ?_⟩
  · intro e he
    simp only [hE] at he
    subst he
    simp [resourceCircleCIEnvironmentVariableCreate, hE]
  · intro h
    obtain ⟨hex, herr⟩ : ex = true ∧ err = none := by
      simp only [hE] at h
      constructor <;> [exact congrArg Prod.fst h; exact congrArg Prod.snd h]
    subst hex
    subst herr
    simp [resourceCircleCIEnvironmentVariableCreate, hE]
  · intro e h1 h2
    obtain ⟨hex, herr⟩ : ex = false ∧ err = none := by
      simp only [hE] at h1
      constructor <;> [exact congrArg Prod.fst h1; exact congrArg Prod.snd h1]
    subst hex
    subst herr
    rcases hA : AddEnvironmentVariable c d.project d.name d.value with ⟨errA, l2⟩
    simp only [hA] at h2
    subst h2
    simp [resourceCircleCIEnvironmentVariableCreate, hE, hA]
  · intro e h1 h2 h3
    obtain ⟨hex, herr⟩ : ex = false ∧ err = none := by
      simp only [hE] at h1
      constructor <;> [exact congrArg Prod.fst h1; exact congrArg Prod.snd h1]
    subst hex
    subst herr
    rcases hA : AddEnvironmentVariable c d.project d.name d.value with ⟨errA, l2⟩
    simp only [hA] at h2
    subst h2
    rcases hR : resourceCircleCIEnvironmentVariableRead c { d with id := d.name }
      with ⟨⟨d2, r⟩, l3⟩
    simp only [hR] at h3
    have hid : d2.id = d.name := by
      have := resourceRead_preserves_id c { d with id := d.name }
      rw [hR] at this
      simpa using this
    constructor
    · simp [resourceCircleCIEnvironmentVariableCreate, hE, hA, hR, h3]
    · simp [resourceCircleCIEnvironmentVariableCreate, hE, hA, hR, hid]

/-- Counterexample for C3 as stated: with a client whose existence check
sees 404, whose create sees 201, and whose read sees 400, Create returns an
error, yet the identity of the record (initially unset) has been set to the
variable name — the record is not Absent. -/
theorem resourceCreate_error_sets_id_counterexample :
    (resourceCircleCIEnvironmentVariableCreate
        (Client.mk "https://circleci.com/api/v1.1" "tok" "github" "org"
          (fun r => if r.method = "HEAD" then Except.ok ⟨404, ""⟩
            else if r.method = "POST" then Except.ok ⟨201, ""⟩
            else Except.ok ⟨400, ""⟩))
        { project := "bar", name := "NAME", value := "v", id := "" }).1
      = ({ project := "bar", name := "NAME", value := "v", id := "NAME" },
         GoResult.err "circleci: wrong status code 400 getting environment variable") := by
  decide

/-- Witness for the amended C3: with existence 404, create 201, read 400,
the failing post-create Read surfaces its error while the identity is
already the variable name. -/
theorem resourceCreate_error_state_witness :
    (resourceCircleCIEnvironmentVariableCreate
        (Client.mk "https://circleci.com/api/v1.1" "tok2" "github" "org"
          (fun r => if r.method = "HEAD" then Except.ok ⟨404, ""⟩
            else if r.method = "POST" then Except.ok ⟨201, ""⟩
            else Except.ok ⟨400, ""⟩))
        { project := "proj", name := "VAR_A", value := "v", id := "" }).1.2
      = GoResult.err "circleci: wrong status code 400 getting environment variable"
    ∧ ((resourceCircleCIEnvironmentVariableCreate
        (Client.mk "https://circleci.com/api/v1.1" "tok2" "github" "org"
          (fun r => if r.method = "HEAD" then Except.ok ⟨404, ""⟩
            else if r.method = "POST" then Except.ok ⟨201, ""⟩
            else Except.ok ⟨400, ""⟩))
        { project := "proj", name := "VAR_A", value := "v", id := "" }).1.1).id
      = "VAR_A" :=
  (resourceCreate_error_state
      (Client.mk "https://circleci.com/api/v1.1" "tok2" "github" "org"
        (fun r => if r.method = "HEAD" then Except.ok ⟨404, ""⟩
          else if r.method = "POST" then Except.ok ⟨201, ""⟩
          else Except.ok ⟨400, ""⟩))
      { project := "proj", name := "VAR_A", value := "v", id := "" }).2.2.2
    "circleci: wrong status code 400 getting environment variable"
    (by decide) (by decide) (by decide)

/-- Claim C8 (amended): every unexpected-status error message of the four
client operations embeds the raw HTTP status code, but the messages are
fixed format strings that do not embed the project or variable name (for
Read this independence from the names is stated explicitly). -/
theorem statusErrorMessages_embed_code
    (u tok v o p n p2 n2 val b : String) (s : Nat) :
    (s ≠ 201 →
        (AddEnvironmentVariable
            (Client.mk u tok v o (fun _ => Except.ok ⟨s, b⟩)) p n val).1
          = some ("client: create wrong status code " ++ toString s)
        ∧ (toString s).toList
            <:+: ("client: create wrong status code " ++ toString s).toList)
    ∧ (s ≠ 200 → s ≠ 404 →
        (EnvironmentVariableExists
            (Client.mk u tok v o (fun _ => Except.ok ⟨s, b⟩)) p n).1.2
          = some ("circleci: wrong status code " ++ toString s
              ++ " getting environment variable")
        ∧ (toString s).toList
            <:+: ("circleci: wrong status code " ++ toString s
              ++ " getting environment variable").toList)
    ∧ (s ≠ 200 →
        (GetEnvironmentVariable
            (Client.mk u tok v o (fun _ => Except.ok ⟨s, b⟩)) p n).1.2
          = some ("circleci: wrong status code " ++ toString s
              ++ " getting environment variable")
        ∧ (toString s).toList
            <:+: ("circleci: wrong status code " ++ toString s
              ++ " getting environment variable").toList
        ∧ (GetEnvironmentVariable
            (Client.mk u tok v o (fun _ => Except.ok ⟨s, b⟩)) p n).1.2
          = (GetEnvironmentVariable
            (Client.mk u tok v o (fun _ => Except.ok ⟨s, b⟩)) p2 n2).1.2)
    ∧ (s ≠ 200 →
        (DeleteEnvironmentVariable
            (Client.mk u tok v o (fun _ => Except.ok ⟨s, b⟩)) p n).1
          = some ("circleci: wrong status code " ++ toString s
              ++ " deleting environment variable")
        ∧ (toString s).toList
            <:+: ("circleci: wrong status code " ++ toString s
              ++ " deleting environment variable").toList) := by
  refine ⟨?_, ?_, ?_, ?_⟩
  · intro h
    refine ⟨?_, toList_infix_right _ _⟩
    simp only [AddEnvironmentVariable]
    rw [if_pos h]
  · intro h200 h404
    refine ⟨?_, toList_infix_middle _ _ _⟩
    simp only [EnvironmentVariableExists]
    rw [if_pos h200, if_neg h404]
  · intro h200
    have hmsg : ∀ q m : String,
        (GetEnvironmentVariable
            (Client.mk u tok v o (fun _ => Except.ok ⟨s, b⟩)) q m).1.2
          = some ("circleci: wrong status code " ++ toString s
              ++ " getting environment variable") := by
      intro q m
      simp only [GetEnvironmentVariable]
      rw [if_pos h200]
    exact ⟨hmsg p n, toList_infix_middle _ _ _, (hmsg p n).trans (hmsg p2 n2).symm⟩
  · intro h200
    refine ⟨?_, toList_infix_middle _ _ _⟩
    simp only [DeleteEnvironmentVariable]
    rw [if_pos h200]

/-- Counterexample for C8 as stated: the Read error for project `bar`,
variable `key` at status 400 embeds the code but neither the project nor
the variable name. -/
theorem statusErrorMessage_counterexample :
    (GetEnvironmentVariable
        (Client.mk "https://circleci.com/api/v1.1" "tok" "github" "org"
          (fun _ => Except.ok ⟨400, ""⟩)) "bar" "key").1.2
      = some "circleci: wrong status code 400 getting environment variable"
    ∧ containsStr "400" "circleci: wrong status code 400 getting environment variable" = true
    ∧ containsStr "bar" "circleci: wrong status code 400 getting environment variable" = false
    ∧ containsStr "key" "circleci: wrong status code 400 getting environment variable" = false :=
  ⟨by decide, by decide, by decide, by decide⟩

/-- Witness for the amended C8: the four messages at the concrete status
403. -/
theorem statusErrorMessages_embed_code_witness :
    (AddEnvironmentVariable
        (Client.mk "u" "t" "v" "o" (fun _ => Except.ok ⟨403, ""⟩)) "p" "n" "val").1
      = some ("client: create wrong status code " ++ toString 403)
    ∧ (DeleteEnvironmentVariable
        (Client.mk "u" "t" "v" "o" (fun _ => Except.ok ⟨403, ""⟩)) "p" "n").1
      = some ("circleci: wrong status code " ++ toString 403
          ++ " deleting environment variable") :=
  ⟨((statusErrorMessages_embed_code "u" "t" "v" "o" "p" "n" "p2" "n2" "val" "" 403).1
      (by decide)).1,
    ((statusErrorMessages_embed_code "u" "t" "v" "o" "p" "n" "p2" "n2" "val" "" 403).2.2.2
      (by decide)).1⟩

/-- Length of `toBytesBE`: exactly `k` bytes. -/
theorem toBytesBE_length (k n : Nat) : (toBytesBE k n).length = k := by
  simp [toBytesBE]

/-- One SHA-256 block step yields the eight hash words. -/
theorem sha256Block_length (hs block : List Nat) : (sha256Block hs block).length = 8 :=
  rfl

/-- Folding block steps preserves the eight-word shape. -/
theorem foldl_sha256Block_length (l : List (List Nat)) :
    ∀ hs : List Nat, hs.length = 8 → (l.foldl sha256Block hs).length = 8 := by
  induction l with
  | nil => intro hs h; simpa using h
  | cons b bs ih => intro hs _; simpa using ih _ (sha256Block_length hs b)

/-- Summing a constant-4 map. -/
theorem sum_map_const4 (l : List Nat) : (l.map (fun _ => (4 : Nat))).sum = 4 * l.length := by
  induction l with
  | nil => simp
  | cons a l ih => simp [ih]; ring

/-- A SHA-256 digest is 32 bytes for every message. -/
theorem sha256_length (msg : List Nat) : (sha256 msg).length = 32 := by
  have h8 : ((chunksOf 64 (sha256Pad msg)).foldl sha256Block sha256InitH).length = 8 :=
    foldl_sha256Block_length _ _ rfl
  show ((((chunksOf 64 (sha256Pad msg)).foldl sha256Block sha256InitH).map
      (toBytesBE 4)).flatten).length = 32
  rw [List.length_flatten, List.map_map]
  have hcomp : (List.length ∘ toBytesBE 4) = fun _ : Nat => (4 : Nat) :=
    funext fun n => toBytesBE_length 4 n
  rw [hcomp, sum_map_const4, h8]

/-- Base64 output length: four characters per started three-byte group. -/
theorem base64Encode_length (l : List Nat) :
    (base64Encode l).length = 4 * ((l.length + 2) / 3) := by
  induction l using base64Encode.induct with
  | case1 => simp [base64Encode]
  | case2 a => simp [base64Encode]; rfl
  | case3 a b => simp [base64Encode]; rfl
  | case4 a b c rest ih =>
    have hdiv : (rest.length + 2 + 3) / 3 = (rest.length + 2) / 3 + 1 :=
      Nat.add_div_right _ (by norm_num)
    simp only [base64Encode, String.length_append, ih, List.length_cons]
    have : rest.length + 1 + 1 + 1 + 2 = rest.length + 2 + 3 := by ring
    rw [this, hdiv]
    simp [String.length]
    ring

/-- SHA-256 sanity vector: the hash of the empty string, base64-encoded. -/
theorem hashString_empty_vector :
    hashString "" = "47DEQpj8HBSa+/TImW+5JCeuQeRkm5NMpJWZG3hSuFU=" := by
  decide

/-- Claim C9: what the value StateFunc persists is the base64-encoded
SHA-256 digest of the plaintext — a fixed 44-character fingerprint — and
for any plaintext that is not itself 44 characters long, in particular the
stored text differs from the plaintext. -/
theorem valueStateFunc_is_hash (value : String) :
    valueStateFunc value = base64Encode (sha256 (utf8Bytes value))
    ∧ (valueStateFunc value).length = 44
    ∧ (value.length ≠ 44 → valueStateFunc value ≠ value) := by
  have hlen : (valueStateFunc value).length = 44 := by
    show (base64Encode (sha256 (utf8Bytes value))).length = 44
    rw [base64Encode_length, sha256_length]
  refine ⟨rfl, hlen, ?_⟩
  intro h heq
  exact h (by rw [← congrArg String.length heq, hlen])

/-- Witness for C9: the plaintext `value` is six characters, so its stored
representation (the 44-character fingerprint) is not the plaintext. -/
theorem valueStateFunc_is_hash_witness :
    ("value" : String).length ≠ 44 ∧ valueStateFunc "value" ≠ "value" :=
  ⟨by decide, (valueStateFunc_is_hash "value").2.2 (by decide)⟩

/-- The language of a character class: exactly the one-character strings
drawn from the class. -/
theorem oneOf_matches (l : List Char) (x : List Char) :
    x ∈ (oneOf l).matches' ↔ ∃ c ∈ l, x = [c] := by
  induction l with
  | nil =>
    simp only [oneOf, List.foldr_nil]
    constructor
    · intro h
      exact absurd h (by simp [RegularExpression.matches'_zero])
    · rintro ⟨c, hc, -⟩
      exact absurd hc (List.not_mem_nil c)
  | cons c cs ih =>
    simp only [oneOf, List.foldr_cons] at *
    rw [RegularExpression.matches'_add]
    constructor
    · intro h
      rcases (Language.mem_add _ _ _).mp h with h1 | h2
      · exact ⟨c, List.mem_cons_self c cs, by
          simpa [RegularExpression.matches'_char] using h1⟩
      · rcases ih.mp h2 with ⟨d, hd, hx⟩
        exact ⟨d, List.mem_cons_of_mem c hd, hx⟩
    · rintro ⟨d, hd, rfl⟩
      rcases List.mem_cons.mp hd with rfl | hd2
      · refine (Language.mem_add _ _ _).mpr (Or.inl ?_)
        rw [RegularExpression.matches'_char]
        exact Set.mem_singleton _
      · exact (Language.mem_add _ _ _).mpr (Or.inr (ih.mpr ⟨d, hd2, rfl⟩))

/-- Flattening singletons reproduces the list. -/
theorem flatten_singletons (l : List Char) :
    (l.map (fun x => [x])).flatten = l := by
  induction l with
  | nil => simp
  | cons c cs ih => simp [ih]

/-- Claim C10: a name made of a letter followed by letters, digits or
underscores (the language of `^[[:alpha:]]+[[:word:]]*$`) passes
`ValidateEnvironmentVariableName`; a name whose first character is not a
letter — in particular a digit or a symbol — fails it. -/
theorem validateEnvironmentVariableName_spec
    (name : String) (c : Char) (cs : List Char) (hname : name.toList = c :: cs) :
    (c ∈ alphaChars → (∀ x ∈ cs, x ∈ wordChars) →
        ValidateEnvironmentVariableName name = true)
    ∧ (c ∉ alphaChars → ValidateEnvironmentVariableName name = false) := by
  constructor
  · intro hc hcs
    rw [ValidateEnvironmentVariableName, hname]
    apply (RegularExpression.rmatch_iff_matches' _ _).mpr
    show c :: cs ∈ (envVarNameRegexp).matches'
    simp only [envVarNameRegexp, plusRE, RegularExpression.matches'_mul,
      RegularExpression.matches'_star]
    have h1 : [c] ∈ (oneOf alphaChars).matches' :=
      (oneOf_matches _ _).mpr ⟨c, hc, rfl⟩
    have h2 : ([] : List Char) ∈ KStar.kstar (oneOf alphaChars).matches' :=
      Language.nil_mem_kstar _
    have h3 : cs ∈ KStar.kstar (oneOf wordChars).matches' := by
      rw [← flatten_singletons cs]
      apply Language.join_mem_kstar
      intro y hy
      rcases List.mem_map.mp hy with ⟨d, hd, rfl⟩
      exact (oneOf_matches _ _).mpr ⟨d, hcs d hd, rfl⟩
    have := Language.append_mem_mul (Language.append_mem_mul h1 h2) h3
    simpa using this
  · intro hc
    rw [ValidateEnvironmentVariableName, hname]
    cases hval : (envVarNameRegexp.rmatch (c :: cs)) with
    | false => rfl
    | true =>
      exfalso
      have hmem := (RegularExpression.rmatch_iff_matches' _ _).mp hval
      simp only [envVarNameRegexp, plusRE, RegularExpression.matches'_mul,
        RegularExpression.matches'_star] at hmem
      rcases Language.mem_mul.mp hmem with ⟨a, ha, b, hb, hab⟩
      rcases Language.mem_mul.mp ha with ⟨a1, ha1, a2, ha2, ha12⟩
      rcases (oneOf_matches _ _).mp ha1 with ⟨d, hd, rfl⟩
      rw [← ha12] at hab
      have hdc : d = c := by
        have : d :: (a2 ++ b) = c :: cs := by simpa using hab
        exact (List.cons.injEq .. ▸ this).1
      exact hc (hdc ▸ hd)

/-- Witness for C10: `Ab1` (letter then letter and digit) validates, `1ab`
(leading digit) does not. -/
theorem validateEnvironmentVariableName_spec_witness :
    ValidateEnvironmentVariableName "Ab1" = true
    ∧ ValidateEnvironmentVariableName "1ab" = false :=
  ⟨(validateEnvironmentVariableName_spec "Ab1" 'A' ['b', '1'] rfl).1
      (by decide) (by decide),
    (validateEnvironmentVariableName_spec "1ab" '1' ['a', 'b'] rfl).2 (by decide)⟩
